import Mathlib

/-!
Verification of the SentinelSight video-analytics core, as a shallow
embedding of the Python sources under `backend/services`: the per-camera
frame queue and capture loop (`stream_ingestion.py`), zone geometry
(`zone_manager.py`), the detection reference point (`inference_engine.py`),
and the rules engine (`rules_engine.py`) with its intrusion and loitering
rules, event deduplication and housekeeping.

Timestamps are modelled as integers (seconds); `Except` models raised
exceptions of fallible operations; Python dictionaries are modelled as
association lists with first-match lookup.
-/

namespace SentinelSight

/-! Frame queue.  Models `queue.Queue` as used by `stream_ingestion.py`:
`items` is the buffered content, oldest first; `maxsize` is the capacity
fixed at construction.  Python counts the queue as full only when
`maxsize > 0` and the buffer has reached it. -/

structure FrameQueue (α : Type) where
  maxsize : Nat
  items : List α

namespace FrameQueue

/-- Fresh queue as built by `StreamIngestion.start_camera`
(`queue.Queue(maxsize=self.max_queue_size)`). -/
def empty (α : Type) (maxsize : Nat) : FrameQueue α := ⟨maxsize, []⟩

/-- Python `Queue.put_nowait`; `none` models the raised `queue.Full`. -/
def put_nowait (q : FrameQueue α) (x : α) : Option (FrameQueue α) :=
  if 0 < q.maxsize ∧ q.maxsize ≤ q.items.length then none
  else some ⟨q.maxsize, q.items ++ [x]⟩

/-- Python `Queue.get_nowait`; `none` models the raised `queue.Empty`. -/
def get_nowait (q : FrameQueue α) : Option (α × FrameQueue α) :=
  match q.items with
  | [] => none
  | x :: rest => some (x, ⟨q.maxsize, rest⟩)

/-- Lines 104 to 114 of `stream_ingestion.py`: `put_nowait`; on
`queue.Full`, drop the oldest frame with `get_nowait` and retry
`put_nowait`, swallowing any failure of the inner block (a bare
`except: pass`). -/
def capturePush (q : FrameQueue α) (x : α) : FrameQueue α :=
  match put_nowait q x with
  | some q1 => q1
  | none =>
    match get_nowait q with
    | none => q
    | some (_, q1) =>
      match put_nowait q1 x with
      | some q2 => q2
      | none => q1

/-- Successive pushes from the capture loop. -/
def pushAll (q : FrameQueue α) (xs : List α) : FrameQueue α :=
  xs.foldl capturePush q

end FrameQueue

namespace StreamIngestion

/-- Default queue capacity of `StreamIngestion.__init__`
(`max_queue_size: int = 100`). -/
def defaultMaxQueueSize : Nat := 100

/-- Lines 52 to 61 of `stream_ingestion.py`: `get_frame` returns `None`
when the camera has no queue and `None` when the blocking `get` times out
on an empty queue; otherwise the next queued frame.  In this sequential
model the timeout only bounds the wait and does not change the returned
value. -/
def get_frame (frameQueues : Int → Option (FrameQueue α)) (cameraId : Int)
    (_timeout : ℚ) : Option α :=
  match frameQueues cameraId with
  | none => none
  | some q =>
    match q.items with
    | [] => none
    | x :: _ => some x

/-- Line 134 of `stream_ingestion.py`: backoff delay
`min(2 ** retry_count, 60)`. -/
def backoffWait (retryCount : Nat) : Nat := min (2 ^ retryCount) 60

/-- Status updates reported to the camera status sink
(`camera_manager.update_status`) by the `while` body of `_capture_loop`
(lines 69 to 136) in the scenario where opening the stream fails on every
attempt and the stop flag is never set, entering with the given
`retry_count`.  The connection attempt is only logged, never reported as a
status.  Each failed attempt reports `error` and increments the counter;
once the counter exceeds `max_retries` the loop reports `offline` and
breaks, otherwise it sleeps for the backoff delay and iterates again. -/
def failLoopStatuses (maxRetries retryCount : Nat) : List String :=
  if maxRetries ≤ retryCount then ["error", "offline"]
  else "error" :: failLoopStatuses maxRetries (retryCount + 1)
termination_by maxRetries - retryCount
decreasing_by omega

/-- Backoff delays slept between failed attempts in the same scenario:
after incrementing `retry_count`, and only when the loop does not break,
it sleeps `min(2 ** retry_count, 60)` seconds. -/
def failLoopWaits (maxRetries retryCount : Nat) : List Nat :=
  if maxRetries ≤ retryCount then []
  else backoffWait (retryCount + 1) :: failLoopWaits maxRetries (retryCount + 1)
termination_by maxRetries - retryCount
decreasing_by omega

/-- Full status trace of `_capture_loop` in the always-fail scenario: the
reports of the loop body starting at `retry_count = 0`, followed by the
cleanup after the loop (lines 138 to 141), which sets the status to
`offline` once more. -/
def captureStatusesAlwaysFail (maxRetries : Nat) : List String :=
  failLoopStatuses maxRetries 0 ++ ["offline"]

end StreamIngestion

namespace InferenceEngine

/-- Bounding box `[x1, y1, x2, y2]` of a detection. -/
structure BBox where
  x1 : Int
  y1 : Int
  x2 : Int
  y2 : Int

/-- Lines 111 to 116 of `inference_engine.py`: reference point used for
zone checking — horizontal midpoint of the box (Python `//` is floor
division, `Int.fdiv`) and the bottom edge of the box. -/
def get_bbox_center (bbox : BBox) : Int × Int :=
  ((bbox.x1 + bbox.x2).fdiv 2, bbox.y2)

end InferenceEngine

namespace ZoneManager

/-- Zone row as read back from the zone store, with JSON-decoded
coordinates (a list of integer-coordinate entries). -/
structure Zone where
  id : Int
  name : String
  type : String
  coordinates : List (List Int)

/-- Decode one coordinate entry the way Python tuple unpacking
`x, y = entry` does: exactly two components, anything else fails. -/
def decodePoint : List Int → Option (Int × Int)
  | [x, y] => some (x, y)
  | _ => none

/-- Crossing test of one polygon edge against a leftward ray from `p`,
over exact rational arithmetic. -/
def edgeCrosses (p a b : Int × Int) : Bool :=
  (decide (p.2 < a.2) != decide (p.2 < b.2)) &&
  decide ((p.1 : ℚ) <
    (a.1 : ℚ) + ((p.2 : ℚ) - (a.2 : ℚ)) * ((b.1 : ℚ) - (a.1 : ℚ)) /
      ((b.2 : ℚ) - (a.2 : ℚ)))

/-- Modelled from the external geometry library used by the polygon branch
(`shapely.geometry.Polygon(...).contains`): an even-odd ray-casting
containment test over the implicitly closed ring.  None of the claims
below depends on its exact boundary behaviour; the theorems only use that
it is a total boolean test. -/
def polygonContains (pts : List (Int × Int)) (p : Int × Int) : Bool :=
  ((pts.zip (pts.rotate 1)).filter (fun e => edgeCrosses p e.1 e.2)).length % 2 = 1

/-- Body of the `try` block of `is_point_in_zone` (lines 103 to 119 of
`zone_manager.py`): evaluate the containment test of the declared shape.
`Except.error` models a raised exception: malformed coordinate entries for
the rectangle unpacking, or the geometry library rejecting polygon data.
An undeclared shape kind reaches `return False` without failing. -/
def shape_containment (p : Int × Int) (zone : Zone) : Except String Bool :=
  if zone.type = "polygon" then
    match zone.coordinates.mapM decodePoint with
    | none => Except.error "invalid polygon coordinates"
    | some pts =>
      if pts.length < 3 then Except.error "polygon needs at least 3 points"
      else Except.ok (polygonContains pts p)
  else if zone.type = "rectangle" then
    match zone.coordinates with
    | c1 :: c2 :: _ =>
      match decodePoint c1, decodePoint c2 with
      | some (x1, y1), some (x2, y2) =>
        Except.ok (decide (min x1 x2 ≤ p.1 ∧ p.1 ≤ max x1 x2 ∧
          min y1 y2 ≤ p.2 ∧ p.2 ≤ max y1 y2))
      | _, _ => Except.error "cannot unpack rectangle corner"
    | _ => Except.error "missing rectangle corner"
  else Except.ok false

/-- Lines 103 to 122 of `zone_manager.py`: the public containment test;
any failure inside the `try` block is caught and reported as `False`. -/
def is_point_in_zone (p : Int × Int) (zone : Zone) : Bool :=
  match shape_containment p zone with
  | Except.ok b => b
  | Except.error _ => false

/-- Normalized inclusive rectangle test as worded by the specification:
compare each coordinate against `min` and `max` of the two corners, both
bounds inclusive.  Spec-side definition, for comparison with the source
test. -/
def rectNormalizedTest (p c1 c2 : Int × Int) : Bool :=
  decide (min c1.1 c2.1 ≤ p.1 ∧ p.1 ≤ max c1.1 c2.1 ∧
    min c1.2 c2.2 ≤ p.2 ∧ p.2 ≤ max c1.2 c2.2)

/-- Rectangle zone with its two corner points in the given order. -/
def rectZone (c1 c2 : Int × Int) : Zone :=
  ⟨0, "rect", "rectangle", [[c1.1, c1.2], [c2.1, c2.2]]⟩

end ZoneManager

namespace RulesEngine

/-- Association-list model of a Python dictionary: first-match lookup. -/
def dictGet {κ ν : Type} [DecidableEq κ] (m : List (κ × ν)) (k : κ) : Option ν :=
  match m with
  | [] => none
  | e :: rest => if e.1 = k then some e.2 else dictGet rest k

/-- Dictionary assignment `m[k] = v`: overwrite in place or append. -/
def dictSet {κ ν : Type} [DecidableEq κ] (m : List (κ × ν)) (k : κ) (v : ν) :
    List (κ × ν) :=
  match m with
  | [] => [(k, v)]
  | e :: rest => if e.1 = k then (k, v) :: rest else e :: dictSet rest k v

/-- Dictionary deletion `del m[k]`: remove the first matching entry. -/
def dictDel {κ ν : Type} [DecidableEq κ] (m : List (κ × ν)) (k : κ) :
    List (κ × ν) :=
  match m with
  | [] => []
  | e :: rest => if e.1 = k then rest else e :: dictDel rest k

/-- Detection record as produced by the detection capability and consumed
by `process_detections`. -/
structure Detection where
  className : String
  confidence : ℚ
  bbox : InferenceEngine.BBox

/-- Rule configuration entry read from the rule-configuration map. -/
structure RuleConfig where
  enabled : Bool
  priority : String
  thresholdSeconds : Int

/-- Defaults read by `_check_intrusion_rule`: enabled, priority `high`
(the threshold field is unused by this rule). -/
def intrusionDefaults : RuleConfig := ⟨true, "high", 0⟩

/-- Defaults read by `_check_loitering_rule`: enabled, priority `medium`,
threshold 30 seconds. -/
def loiteringDefaults : RuleConfig := ⟨true, "medium", 30⟩

/-- Event record handed to the event sink, with the metadata fields the
rules attach (zone id, zone name, and for loitering the dwell seconds). -/
structure Event where
  cameraId : Int
  ruleType : String
  objectType : String
  confidence : ℚ
  bbox : InferenceEngine.BBox
  snapshotPath : String
  priority : String
  zoneId : Int
  zoneName : String
  durationSeconds : Option Int

/-- Mutable state of the rules engine: `zone_occupancy` keyed by zone id
and object key, holding the first-seen time, and `recent_events` keyed by
event hash, holding the last emission time. -/
structure RulesState where
  zoneOccupancy : List ((Int × String) × Int)
  recentEvents : List (String × Int)

/-- Line 33 of `rules_engine.py`: `dedup_window = timedelta(seconds=5)`. -/
def dedupWindow : Int := 5

/-- Line 79: dedup hash of the intrusion rule. -/
def intrusionHash (cameraId zoneId : Int) (className : String) : String :=
  toString cameraId ++ "_" ++ toString zoneId ++ "_intrusion_" ++ className

/-- Line 128: grid-quantized object key used by the loitering rule. -/
def objectKey (center : Int × Int) : String :=
  toString (center.1.fdiv 50) ++ "_" ++ toString (center.2.fdiv 50)

/-- Line 145: dedup hash of the loitering rule. -/
def loiteringHash (cameraId zoneId : Int) (objKey : String) : String :=
  toString cameraId ++ "_" ++ toString zoneId ++ "_loitering_" ++ objKey

/-- Lines 212 to 219: `_is_duplicate_event` — a repeat of a known hash is
a duplicate exactly when strictly less than the dedup window has passed
since the recorded emission time. -/
def is_duplicate_event (recentEvents : List (String × Int)) (now : Int)
    (eventHash : String) : Bool :=
  match dictGet recentEvents eventHash with
  | some lastTime => decide (now - lastTime < dedupWindow)
  | none => false

/-- Lines 183 to 210: `_save_snapshot` returns the written path, or the
empty string when the annotate-and-write attempt raises.  The fallible
image I/O is passed in as its outcome. -/
def save_snapshot (writeAttempt : Except String String) : String :=
  match writeAttempt with
  | Except.ok path => path
  | Except.error _ => ""

/-- Lines 72 to 112: `_check_intrusion_rule` — skip when disabled, skip
when the hash is a recent duplicate, otherwise save a snapshot, emit the
event at the configured priority and record the dedup entry. -/
def check_intrusion_rule (cfg : RuleConfig) (cameraId : Int)
    (zone : ZoneManager.Zone) (det : Detection)
    (writeAttempt : Except String String) (st : RulesState) (now : Int) :
    RulesState × Option Event :=
  if cfg.enabled = false then (st, none)
  else
    let eventHash := intrusionHash cameraId zone.id det.className
    if is_duplicate_event st.recentEvents now eventHash then (st, none)
    else
      let snapshotPath := save_snapshot writeAttempt
      (⟨st.zoneOccupancy, dictSet st.recentEvents eventHash now⟩,
        some ⟨cameraId, "intrusion", det.className, det.confidence, det.bbox,
          snapshotPath, cfg.priority, zone.id, zone.name, none⟩)

/-- Lines 114 to 181: `_check_loitering_rule` — only `person` detections
are tracked; the first sighting of a grid key in a zone records the
occupancy entry and emits nothing; once the dwell reaches the threshold
and the hash is not a recent duplicate, the event is emitted at the
configured priority, the dedup entry recorded and the occupancy entry
deleted. -/
def check_loitering_rule (cfg : RuleConfig) (cameraId : Int)
    (zone : ZoneManager.Zone) (det : Detection)
    (writeAttempt : Except String String) (st : RulesState) (now : Int) :
    RulesState × Option Event :=
  if cfg.enabled = false then (st, none)
  else if det.className ≠ "person" then (st, none)
  else
    let center := InferenceEngine.get_bbox_center det.bbox
    let objKey := objectKey center
    match dictGet st.zoneOccupancy (zone.id, objKey) with
    | none =>
      (⟨dictSet st.zoneOccupancy (zone.id, objKey) now, st.recentEvents⟩, none)
    | some firstSeen =>
      let duration := now - firstSeen
      if cfg.thresholdSeconds ≤ duration then
        let eventHash := loiteringHash cameraId zone.id objKey
        if is_duplicate_event st.recentEvents now eventHash then (st, none)
        else
          let snapshotPath := save_snapshot writeAttempt
          (⟨dictDel st.zoneOccupancy (zone.id, objKey),
              dictSet st.recentEvents eventHash now⟩,
            some ⟨cameraId, "loitering", det.className, det.confidence,
              det.bbox, snapshotPath, cfg.priority, zone.id, zone.name,
              some duration⟩)
      else (st, none)

/-- Lines 221 to 231: `_cleanup_zone_occupancy` deletes every occupancy
entry strictly older than the 60 second staleness timeout. -/
def cleanup_zone_occupancy (occ : List ((Int × String) × Int)) (now : Int) :
    List ((Int × String) × Int) :=
  occ.filter (fun e => decide (now - e.2 ≤ 60))

/-- Lines 233 to 243: `_cleanup_recent_events` deletes every dedup entry
strictly older than the dedup window. -/
def cleanup_recent_events (recentEvents : List (String × Int)) (now : Int) :
    List (String × Int) :=
  recentEvents.filter (fun e => decide (now - e.2 ≤ dedupWindow))

/-- Inner loop of `process_detections` (lines 58 to 66): one detection
checked against every zone; for each zone containing the reference point,
the intrusion rule runs and then the loitering rule. -/
def processZones (cfgIntrusion cfgLoitering : RuleConfig) (cameraId : Int)
    (det : Detection) (writeAttempt : Except String String) (now : Int) :
    List ZoneManager.Zone → RulesState → RulesState × List Event
  | [], st => (st, [])
  | zone :: zones, st =>
    if ZoneManager.is_point_in_zone (InferenceEngine.get_bbox_center det.bbox)
        zone then
      let r1 := check_intrusion_rule cfgIntrusion cameraId zone det
        writeAttempt st now
      let r2 := check_loitering_rule cfgLoitering cameraId zone det
        writeAttempt r1.1 now
      let rest := processZones cfgIntrusion cfgLoitering cameraId det
        writeAttempt now zones r2.1
      (rest.1, r1.2.toList ++ r2.2.toList ++ rest.2)
    else processZones cfgIntrusion cfgLoitering cameraId det writeAttempt now
      zones st

/-- Outer loop of `process_detections` (lines 52 to 66): every detection
checked against every zone, in order. -/
def processAllDetections (cfgIntrusion cfgLoitering : RuleConfig)
    (cameraId : Int) (zones : List ZoneManager.Zone)
    (writeAttempt : Except String String) (now : Int) :
    List Detection → RulesState → RulesState × List Event
  | [], st => (st, [])
  | det :: dets, st =>
    let r1 := processZones cfgIntrusion cfgLoitering cameraId det writeAttempt
      now zones st
    let rest := processAllDetections cfgIntrusion cfgLoitering cameraId zones
      writeAttempt now dets r1.1
    (rest.1, r1.2 ++ rest.2)

/-- Lines 41 to 70: `process_detections` — early return with no work and
no housekeeping when the detection list is empty or the camera has no
zones; otherwise check every detection against every zone and then run
both housekeeping purges. -/
def process_detections (cfgIntrusion cfgLoitering : RuleConfig)
    (cameraId : Int) (zones : List ZoneManager.Zone)
    (detections : List Detection) (writeAttempt : Except String String)
    (st : RulesState) (now : Int) : RulesState × List Event :=
  if detections.isEmpty then (st, [])
  else if zones.isEmpty then (st, [])
  else
    let r := processAllDetections cfgIntrusion cfgLoitering cameraId zones
      writeAttempt now detections st
    (⟨cleanup_zone_occupancy r.1.zoneOccupancy now,
        cleanup_recent_events r.1.recentEvents now⟩, r.2)

/-- Trace of successive `process_detections` calls at the given times,
each call carrying a single in-zone detection that triggers the intrusion
rule for one fixed dedup hash (the loitering rule is disabled or skipped
for the class, so only the intrusion rule and the housekeeping purges
mutate the dedup state).  Returns the creation times of the emitted
intrusion events. -/
def runIntrusionCalls (cfg : RuleConfig) (cameraId : Int)
    (zone : ZoneManager.Zone) (det : Detection)
    (writeAttempt : Except String String) :
    RulesState → List Int → List Int
  | _, [] => []
  | st, t :: ts =>
    let step := check_intrusion_rule cfg cameraId zone det writeAttempt st t
    let st2 : RulesState := ⟨cleanup_zone_occupancy step.1.zoneOccupancy t,
      cleanup_recent_events step.1.recentEvents t⟩
    match step.2 with
    | some _ => t :: runIntrusionCalls cfg cameraId zone det writeAttempt st2 ts
    | none => runIntrusionCalls cfg cameraId zone det writeAttempt st2 ts

/-- Timestamps in the list are pairwise separated by at least `w`
seconds (later minus earlier). -/
def SeparatedBy (w : Int) (l : List Int) : Prop :=
  List.Pairwise (fun a b => w ≤ b - a) l

end RulesEngine

/-! Concrete instances used by the witnesses below. -/

/-- Rectangle zone with id 2 and corners (0,0), (100,100). -/
def witnessZone : ZoneManager.Zone := ⟨2, "Z", "rectangle", [[0, 0], [100, 100]]⟩

/-- Detection of class `car` with reference point (50, 90). -/
def witnessCarDetection : RulesEngine.Detection := ⟨"car", 9 / 10, ⟨40, 40, 60, 90⟩⟩

/-- Detection of class `person` with reference point (50, 90). -/
def witnessPersonDetection : RulesEngine.Detection :=
  ⟨"person", 9 / 10, ⟨40, 40, 60, 90⟩⟩

/-- Rules-engine state holding one occupancy entry first seen at time 0. -/
def staleOccupancyState : RulesEngine.RulesState := ⟨[((7, "0_0"), 0)], []⟩

/-- Queue map of a system where no camera was ever started. -/
def noQueues : Int → Option (FrameQueue Nat) := fun _ => none

/-- Queue map where every camera has an empty queue of capacity 100. -/
def emptyQueues : Int → Option (FrameQueue Nat) :=
  fun _ => some (FrameQueue.empty Nat 100)

/-! Helper lemmas. -/

/-- Reading back a key just assigned yields the assigned value. -/
theorem dictGet_dictSet_self {κ ν : Type} [DecidableEq κ]
    (m : List (κ × ν)) (k : κ) (v : ν) :
    RulesEngine.dictGet (RulesEngine.dictSet m k v) k = some v := by
  induction m with
  | nil => simp [RulesEngine.dictSet, RulesEngine.dictGet]
  | cons e rest ih =>
    by_cases h : e.1 = k
    · simp [RulesEngine.dictSet, RulesEngine.dictGet, h]
    · simp [RulesEngine.dictSet, RulesEngine.dictGet, h, ih]

/-- A key absent from the key column looks up to nothing. -/
theorem dictGet_eq_none_of_not_mem {κ ν : Type} [DecidableEq κ]
    (m : List (κ × ν)) (k : κ) (h : k ∉ m.map Prod.fst) :
    RulesEngine.dictGet m k = none := by
  induction m with
  | nil => rfl
  | cons e rest ih =>
    simp only [List.map_cons, List.mem_cons, not_or] at h
    have h1 : e.1 ≠ k := fun he => h.1 he.symm
    simp [RulesEngine.dictGet, h1, ih h.2]

/-- With duplicate-free keys, deleting a key makes its lookup fail. -/
theorem dictGet_dictDel_self {κ ν : Type} [DecidableEq κ]
    (m : List (κ × ν)) (k : κ) (hnodup : (m.map Prod.fst).Nodup) :
    RulesEngine.dictGet (RulesEngine.dictDel m k) k = none := by
  induction m with
  | nil => rfl
  | cons e rest ih =>
    rw [List.map_cons, List.nodup_cons] at hnodup
    by_cases h : e.1 = k
    · have hk : k ∉ rest.map Prod.fst := h ▸ hnodup.1
      simp [RulesEngine.dictDel, h, dictGet_eq_none_of_not_mem rest k hk]
    · simp [RulesEngine.dictDel, h, RulesEngine.dictGet, ih hnodup.2]

/-- A dedup entry still young enough to be kept by the cleanup is also
found unchanged after the cleanup. -/
theorem dictGet_cleanup_recent (m : List (String × Int)) (k : String)
    (v now : Int) (hv : now - v ≤ RulesEngine.dedupWindow) :
    RulesEngine.dictGet m k = some v →
    RulesEngine.dictGet (RulesEngine.cleanup_recent_events m now) k = some v := by
  induction m with
  | nil => intro h; simp [RulesEngine.dictGet] at h
  | cons e rest ih =>
    intro h
    rw [RulesEngine.dictGet] at h
    rw [RulesEngine.cleanup_recent_events, List.filter_cons]
    by_cases he : e.1 = k
    · rw [if_pos he] at h
      have hev : e.2 = v := by simpa using h
      have hkeep : decide (now - e.2 ≤ RulesEngine.dedupWindow) = true := by
        rw [hev]; exact decide_eq_true hv
      rw [hkeep, if_pos rfl, RulesEngine.dictGet, if_pos he, hev]
    · rw [if_neg he] at h
      have htail := ih h
      rw [RulesEngine.cleanup_recent_events] at htail
      rcases hcase : decide (now - e.2 ≤ RulesEngine.dedupWindow) with _ | _
      · rw [if_neg (by simp)]
        exact htail
      · rw [if_pos rfl, RulesEngine.dictGet, if_neg he]
        exact htail

/-- Reduction of the per-call trace when the trigger is suppressed as a
duplicate: no event, state passes through the housekeeping purges. -/
theorem runIntrusionCalls_cons_dup (cfg : RulesEngine.RuleConfig)
    (cameraId : Int) (zone : ZoneManager.Zone) (det : RulesEngine.Detection)
    (wa : Except String String) (st : RulesEngine.RulesState) (t : Int)
    (ts : List Int) (hen : cfg.enabled = true)
    (hdup : RulesEngine.is_duplicate_event st.recentEvents t
      (RulesEngine.intrusionHash cameraId zone.id det.className) = true) :
    RulesEngine.runIntrusionCalls cfg cameraId zone det wa st (t :: ts) =
      RulesEngine.runIntrusionCalls cfg cameraId zone det wa
        ⟨RulesEngine.cleanup_zone_occupancy st.zoneOccupancy t,
          RulesEngine.cleanup_recent_events st.recentEvents t⟩ ts := by
  simp [RulesEngine.runIntrusionCalls, RulesEngine.check_intrusion_rule, hen, hdup]

/-- Reduction of the per-call trace when the trigger emits: the event time
is recorded and the dedup entry written before the housekeeping purges. -/
theorem runIntrusionCalls_cons_emit (cfg : RulesEngine.RuleConfig)
    (cameraId : Int) (zone : ZoneManager.Zone) (det : RulesEngine.Detection)
    (wa : Except String String) (st : RulesEngine.RulesState) (t : Int)
    (ts : List Int) (hen : cfg.enabled = true)
    (hdup : RulesEngine.is_duplicate_event st.recentEvents t
      (RulesEngine.intrusionHash cameraId zone.id det.className) = false) :
    RulesEngine.runIntrusionCalls cfg cameraId zone det wa st (t :: ts) =
      t :: RulesEngine.runIntrusionCalls cfg cameraId zone det wa
        ⟨RulesEngine.cleanup_zone_occupancy st.zoneOccupancy t,
          RulesEngine.cleanup_recent_events
            (RulesEngine.dictSet st.recentEvents
              (RulesEngine.intrusionHash cameraId zone.id det.className) t) t⟩
        ts := by
  simp [RulesEngine.runIntrusionCalls, RulesEngine.check_intrusion_rule, hen, hdup]

/-- Key separation invariant: starting from a state whose dedup entry for
the hash reads `tl`, every event emitted later is at least a window after
`tl` and the emitted times are pairwise separated by the window. -/
theorem intrusion_sep_aux (cfg : RulesEngine.RuleConfig) (cameraId : Int)
    (zone : ZoneManager.Zone) (det : RulesEngine.Detection)
    (wa : Except String String) (hen : cfg.enabled = true) (ts : List Int) :
    ∀ (st : RulesEngine.RulesState) (tl : Int),
      List.Sorted (· ≤ ·) ts →
      RulesEngine.dictGet st.recentEvents
        (RulesEngine.intrusionHash cameraId zone.id det.className) = some tl →
      (∀ t ∈ ts, tl ≤ t) →
      List.Pairwise (fun a b => RulesEngine.dedupWindow ≤ b - a)
        (tl :: RulesEngine.runIntrusionCalls cfg cameraId zone det wa st ts) := by
  induction ts with
  | nil =>
    intro st tl _ _ _
    simp [RulesEngine.runIntrusionCalls]
  | cons t ts ih =>
    intro st tl hsorted hget hall
    rw [List.sorted_cons] at hsorted
    have htl_t : tl ≤ t := hall t (by simp)
    by_cases hdup : RulesEngine.is_duplicate_event st.recentEvents t
      (RulesEngine.intrusionHash cameraId zone.id det.className) = true
    · have hlt : t - tl < RulesEngine.dedupWindow := by
        have hd := hdup
        simp only [RulesEngine.is_duplicate_event, hget, decide_eq_true_eq] at hd
        exact hd
      rw [runIntrusionCalls_cons_dup cfg cameraId zone det wa st t ts hen hdup]
      refine ih _ tl hsorted.2 ?_ ?_
      · exact dictGet_cleanup_recent st.recentEvents _ tl t (le_of_lt hlt) hget
      · intro x hx; exact hall x (by simp [hx])
    · have hdupf : RulesEngine.is_duplicate_event st.recentEvents t
        (RulesEngine.intrusionHash cameraId zone.id det.className) = false := by
        simpa using hdup
      have hge : RulesEngine.dedupWindow ≤ t - tl := by
        have := hdupf
        simp only [RulesEngine.is_duplicate_event, hget,
          decide_eq_false_iff_not, not_lt] at this
        exact this
      rw [runIntrusionCalls_cons_emit cfg cameraId zone det wa st t ts hen hdupf]
      have hget2 : RulesEngine.dictGet
          (RulesEngine.cleanup_recent_events
            (RulesEngine.dictSet st.recentEvents
              (RulesEngine.intrusionHash cameraId zone.id det.className) t) t)
          (RulesEngine.intrusionHash cameraId zone.id det.className) = some t := by
        refine dictGet_cleanup_recent _ _ t t ?_ (dictGet_dictSet_self _ _ _)
        norm_num [RulesEngine.dedupWindow]
      have hpair := ih
        ⟨RulesEngine.cleanup_zone_occupancy st.zoneOccupancy t,
          RulesEngine.cleanup_recent_events
            (RulesEngine.dictSet st.recentEvents
              (RulesEngine.intrusionHash cameraId zone.id det.className) t) t⟩
        t hsorted.2 hget2 hsorted.1
      rw [List.pairwise_cons]
      refine ⟨?_, hpair⟩
      intro x hx
      rcases List.mem_cons.mp hx with rfl | hx2
      · exact hge
      · have h1 := (List.pairwise_cons.mp hpair).1 x hx2
        have h2 : (0 : Int) ≤ RulesEngine.dedupWindow := by
          norm_num [RulesEngine.dedupWindow]
        linarith

/-- Starting with no dedup entry for the hash, the emitted event times of
the call trace are pairwise separated by at least the dedup window. -/
theorem intrusion_sep_start (cfg : RulesEngine.RuleConfig) (cameraId : Int)
    (zone : ZoneManager.Zone) (det : RulesEngine.Detection)
    (wa : Except String String) (hen : cfg.enabled = true) (ts : List Int)
    (st : RulesEngine.RulesState) (hsorted : List.Sorted (· ≤ ·) ts)
    (h0 : RulesEngine.dictGet st.recentEvents
      (RulesEngine.intrusionHash cameraId zone.id det.className) = none) :
    List.Pairwise (fun a b => RulesEngine.dedupWindow ≤ b - a)
      (RulesEngine.runIntrusionCalls cfg cameraId zone det wa st ts) := by
  cases ts with
  | nil => simp [RulesEngine.runIntrusionCalls]
  | cons t ts =>
    rw [List.sorted_cons] at hsorted
    have hdupf : RulesEngine.is_duplicate_event st.recentEvents t
        (RulesEngine.intrusionHash cameraId zone.id det.className) = false := by
      simp [RulesEngine.is_duplicate_event, h0]
    rw [runIntrusionCalls_cons_emit cfg cameraId zone det wa st t ts hen hdupf]
    refine intrusion_sep_aux cfg cameraId zone det wa hen ts _ t hsorted.2 ?_
      hsorted.1
    refine dictGet_cleanup_recent _ _ t t ?_ (dictGet_dictSet_self _ _ _)
    norm_num [RulesEngine.dedupWindow]

/-- Rectangle branch of the containment test, reduced to its inclusive
min and max bounds test. -/
theorem is_point_in_zone_rect (c1 c2 p : Int × Int) :
    ZoneManager.is_point_in_zone p (ZoneManager.rectZone c1 c2) =
      decide (min c1.1 c2.1 ≤ p.1 ∧ p.1 ≤ max c1.1 c2.1 ∧
        min c1.2 c2.2 ≤ p.2 ∧ p.2 ≤ max c1.2 c2.2) := rfl

/-- Pushing into a queue with spare room appends the frame. -/
theorem capturePush_of_lt {α : Type} {C : Nat} {l : List α} (x : α)
    (h : l.length < C) :
    FrameQueue.capturePush ⟨C, l⟩ x = ⟨C, l ++ [x]⟩ := by
  have hcond : ¬(0 < C ∧ C ≤ l.length) := by omega
  simp [FrameQueue.capturePush, FrameQueue.put_nowait, hcond]

/-- Pushing into a full queue drops the oldest frame and appends the new
one. -/
theorem capturePush_of_full {α : Type} {C : Nat} {hd : α} {tl : List α}
    (x : α) (hC : 0 < C) (h : (hd :: tl).length = C) :
    FrameQueue.capturePush ⟨C, hd :: tl⟩ x = ⟨C, tl ++ [x]⟩ := by
  have hlen : tl.length + 1 = C := by simpa using h
  have hcond : 0 < C ∧ C ≤ (hd :: tl).length := ⟨hC, by simp; omega⟩
  have hcond2 : ¬(0 < C ∧ C ≤ tl.length) := by omega
  have h1 : FrameQueue.put_nowait ⟨C, hd :: tl⟩ x = none := by
    simp only [FrameQueue.put_nowait]
    rw [if_pos hcond]
  have h2 : FrameQueue.put_nowait ⟨C, tl⟩ x = some ⟨C, tl ++ [x]⟩ := by
    simp only [FrameQueue.put_nowait]
    rw [if_neg hcond2]
  simp only [FrameQueue.capturePush, h1, FrameQueue.get_nowait, h2]

/-- Content of the queue after a push sequence: the suffix of the pushed
frames (behind the initial content) that fits in the capacity. -/
theorem pushAll_items {α : Type} (C : Nat) (hC : 0 < C) (fs : List α) :
    ∀ l : List α, l.length ≤ C →
      (FrameQueue.pushAll ⟨C, l⟩ fs).items =
        (l ++ fs).drop (l.length + fs.length - C) := by
  induction fs with
  | nil =>
    intro l hl
    show (FrameQueue.pushAll ⟨C, l⟩ []).items =
      (l ++ []).drop (l.length + List.length ([] : List α) - C)
    have h0 : l.length + List.length ([] : List α) - C = 0 := by simp; omega
    rw [h0, List.drop_zero, List.append_nil]
    rfl
  | cons x fs ih =>
    intro l hl
    have hstep : FrameQueue.pushAll ⟨C, l⟩ (x :: fs) =
        FrameQueue.pushAll (FrameQueue.capturePush ⟨C, l⟩ x) fs := rfl
    rcases Nat.lt_or_ge l.length C with hlt | hge
    · rw [hstep, capturePush_of_lt x hlt,
        ih (l ++ [x]) (by simp; omega)]
      have h1 : (l ++ [x]) ++ fs = l ++ x :: fs := by simp
      have h2 : (l ++ [x]).length + fs.length - C =
          l.length + (x :: fs).length - C := by simp; omega
      rw [h1, h2]
    · have hlen : l.length = C := le_antisymm hl hge
      obtain ⟨hd, tl, rfl⟩ : ∃ hd tl, l = hd :: tl := by
        cases l with
        | nil => simp at hlen; omega
        | cons a b => exact ⟨a, b, rfl⟩
      have htl : tl.length + 1 = C := by simpa using hlen
      rw [hstep, capturePush_of_full x hC hlen,
        ih (tl ++ [x]) (by simp; omega)]
      have h1 : (tl ++ [x]) ++ fs = tl ++ x :: fs := by simp
      have h2 : (tl ++ [x]).length + fs.length - C = fs.length := by
        simp; omega
      have h3 : (hd :: tl).length + (x :: fs).length - C = fs.length + 1 := by
        simp; omega
      rw [h1, h2, h3, List.cons_append, List.drop_succ_cons]

/-! Claim theorems. -/

/-- C1: for every sequence of pushes into a camera FrameQueue that exceeds
its capacity C, push never blocks (`capturePush` is a total function on the
queue), the queue never holds more than C frames at any point, and after
the sequence the queue holds exactly the C most recently pushed frames in
push order: when full, the oldest frame is discarded and the new frame
inserted. -/
theorem frame_queue_drop_oldest (α : Type) (C : Nat) (fs : List α)
    (hC : 0 < C) (_hflood : C < fs.length) :
    (∀ n, (FrameQueue.pushAll (FrameQueue.empty α C) (fs.take n)).items.length
      ≤ C) ∧
    (FrameQueue.pushAll (FrameQueue.empty α C) fs).items =
      fs.drop (fs.length - C) := by
  constructor
  · intro n
    have h := pushAll_items C hC (fs.take n) [] (by simp)
    simp only [List.nil_append, List.length_nil, Nat.zero_add] at h
    have hempty : FrameQueue.empty α C = (⟨C, []⟩ : FrameQueue α) := rfl
    rw [hempty, h, List.length_drop]
    omega
  · have h := pushAll_items C hC fs [] (by simp)
    simp only [List.nil_append, List.length_nil, Nat.zero_add] at h
    exact h

/-- C1 witness: capacity 2 flooded with five frames keeps the last two in
order. -/
theorem frame_queue_drop_oldest_witness :
    (FrameQueue.pushAll (FrameQueue.empty Nat 2) [0, 1, 2, 3, 4]).items =
      [3, 4] := by
  have h := (frame_queue_drop_oldest Nat 2 [0, 1, 2, 3, 4] (by decide)
    (by decide)).2
  rw [h]
  decide

/-- C2: for every camera, zone and object class, the intrusion events
created for the dedup key over any ascending sequence of trigger times are
pairwise separated by at least the dedup window — so at most one intrusion
event falls strictly within any window span, regardless of how many
detections of that class occur in that zone during the window — and a
further detection once strictly more than the window has elapsed since the
recorded emission is never suppressed: it creates a new intrusion event. -/
theorem intrusion_dedup_window (cfg : RulesEngine.RuleConfig) (cameraId : Int)
    (zone : ZoneManager.Zone) (det : RulesEngine.Detection)
    (wa : Except String String) (hen : cfg.enabled = true) (ts : List Int)
    (st : RulesEngine.RulesState) (hsorted : List.Sorted (· ≤ ·) ts)
    (h0 : RulesEngine.dictGet st.recentEvents
      (RulesEngine.intrusionHash cameraId zone.id det.className) = none) :
    RulesEngine.SeparatedBy RulesEngine.dedupWindow
      (RulesEngine.runIntrusionCalls cfg cameraId zone det wa st ts) ∧
    (∀ (st2 : RulesEngine.RulesState) (tlast tnew : Int),
      RulesEngine.dictGet st2.recentEvents
        (RulesEngine.intrusionHash cameraId zone.id det.className) =
          some tlast →
      RulesEngine.dedupWindow < tnew - tlast →
      ∃ ev, (RulesEngine.check_intrusion_rule cfg cameraId zone det wa st2
          tnew).2 = some ev ∧ ev.ruleType = "intrusion") := by
  constructor
  · exact intrusion_sep_start cfg cameraId zone det wa hen ts st hsorted h0
  · intro st2 tlast tnew hget hgap
    have hdupf : RulesEngine.is_duplicate_event st2.recentEvents tnew
        (RulesEngine.intrusionHash cameraId zone.id det.className) = false := by
      simp only [RulesEngine.is_duplicate_event, hget,
        decide_eq_false_iff_not, not_lt]
      linarith
    refine ⟨⟨cameraId, "intrusion", det.className, det.confidence, det.bbox,
      RulesEngine.save_snapshot wa, cfg.priority, zone.id, zone.name, none⟩,
      ?_, rfl⟩
    simp [RulesEngine.check_intrusion_rule, hen, hdupf]

/-- C2 witness: triggers at times 0, 3 and 6 for the key of camera 1,
zone 2, class car — the trigger at 3 is suppressed, the emissions 0 and 6
are a window apart; and with the entry recorded at 0, a trigger at 6
(strictly past the window) creates a new event. -/
theorem intrusion_dedup_window_witness :
    RulesEngine.SeparatedBy RulesEngine.dedupWindow
      (RulesEngine.runIntrusionCalls RulesEngine.intrusionDefaults 1
        witnessZone witnessCarDetection (Except.ok "p") ⟨[], []⟩ [0, 3, 6]) ∧
    (∃ ev, (RulesEngine.check_intrusion_rule RulesEngine.intrusionDefaults 1
        witnessZone witnessCarDetection (Except.ok "p")
        ⟨[], [(RulesEngine.intrusionHash 1 2 "car", 0)]⟩ 6).2 = some ev ∧
      ev.ruleType = "intrusion") := by
  have h := intrusion_dedup_window RulesEngine.intrusionDefaults 1 witnessZone
    witnessCarDetection (Except.ok "p") rfl [0, 3, 6] ⟨[], []⟩ (by decide) rfl
  exact ⟨h.1, h.2 ⟨[], [(RulesEngine.intrusionHash 1 2 "car", 0)]⟩ 0 6
    (by decide) (by decide)⟩

/-- C3: the loitering rule applies only to detections of class person (all
other classes leave the state untouched and emit nothing); the object key
is the grid quantization (x floor-div 50, y floor-div 50) of the reference
point, which is the horizontal bbox midpoint paired with the bbox bottom
edge; the first sighting of a key in a zone records an occupancy entry at
the current time and emits no event; a later sighting with dwell
`now - firstSeen` at least the threshold (default 30, at default priority
medium), not suppressed by the loitering dedup key, creates exactly one
loitering event at the configured priority, records the dedup entry and
deletes the occupancy entry. -/
theorem loitering_rule_correct (cfg : RulesEngine.RuleConfig) (cameraId : Int)
    (zone : ZoneManager.Zone) (det : RulesEngine.Detection)
    (wa : Except String String) (st : RulesEngine.RulesState) (now : Int)
    (hen : cfg.enabled = true) :
    (InferenceEngine.get_bbox_center det.bbox =
      ((det.bbox.x1 + det.bbox.x2).fdiv 2, det.bbox.y2)) ∧
    (RulesEngine.objectKey (InferenceEngine.get_bbox_center det.bbox) =
      toString (((det.bbox.x1 + det.bbox.x2).fdiv 2).fdiv 50) ++ "_" ++
        toString (det.bbox.y2.fdiv 50)) ∧
    (det.className ≠ "person" →
      RulesEngine.check_loitering_rule cfg cameraId zone det wa st now =
        (st, none)) ∧
    (det.className = "person" →
      RulesEngine.dictGet st.zoneOccupancy
        (zone.id, RulesEngine.objectKey
          (InferenceEngine.get_bbox_center det.bbox)) = none →
      RulesEngine.check_loitering_rule cfg cameraId zone det wa st now =
        (⟨RulesEngine.dictSet st.zoneOccupancy
            (zone.id, RulesEngine.objectKey
              (InferenceEngine.get_bbox_center det.bbox)) now,
          st.recentEvents⟩, none)) ∧
    (∀ firstSeen : Int, det.className = "person" →
      RulesEngine.dictGet st.zoneOccupancy
        (zone.id, RulesEngine.objectKey
          (InferenceEngine.get_bbox_center det.bbox)) = some firstSeen →
      cfg.thresholdSeconds ≤ now - firstSeen →
      RulesEngine.is_duplicate_event st.recentEvents now
        (RulesEngine.loiteringHash cameraId zone.id
          (RulesEngine.objectKey
            (InferenceEngine.get_bbox_center det.bbox))) = false →
      (st.zoneOccupancy.map Prod.fst).Nodup →
      ∃ ev : RulesEngine.Event,
        RulesEngine.check_loitering_rule cfg cameraId zone det wa st now =
          (⟨RulesEngine.dictDel st.zoneOccupancy
              (zone.id, RulesEngine.objectKey
                (InferenceEngine.get_bbox_center det.bbox)),
            RulesEngine.dictSet st.recentEvents
              (RulesEngine.loiteringHash cameraId zone.id
                (RulesEngine.objectKey
                  (InferenceEngine.get_bbox_center det.bbox))) now⟩,
            some ev) ∧
        ev.ruleType = "loitering" ∧ ev.priority = cfg.priority ∧
        ev.snapshotPath = RulesEngine.save_snapshot wa ∧
        RulesEngine.dictGet
          (RulesEngine.check_loitering_rule cfg cameraId zone det wa st
            now).1.zoneOccupancy
          (zone.id, RulesEngine.objectKey
            (InferenceEngine.get_bbox_center det.bbox)) = none) ∧
    (RulesEngine.loiteringDefaults.thresholdSeconds = 30 ∧
      RulesEngine.loiteringDefaults.priority = "medium") := by
  refine ⟨rfl, rfl, ?_, ?_, ?_, rfl, rfl⟩
  · intro hcls
    simp [RulesEngine.check_loitering_rule, hen, hcls]
  · intro hcls hnone
    simp [RulesEngine.check_loitering_rule, hen, hcls, hnone]
  · intro firstSeen hcls hsome hthr hdup hnodup
    have heq : RulesEngine.check_loitering_rule cfg cameraId zone det wa st
        now =
        (⟨RulesEngine.dictDel st.zoneOccupancy
            (zone.id, RulesEngine.objectKey
              (InferenceEngine.get_bbox_center det.bbox)),
          RulesEngine.dictSet st.recentEvents
            (RulesEngine.loiteringHash cameraId zone.id
              (RulesEngine.objectKey
                (InferenceEngine.get_bbox_center det.bbox))) now⟩,
          some ⟨cameraId, "loitering", det.className, det.confidence,
            det.bbox, RulesEngine.save_snapshot wa, cfg.priority, zone.id,
            zone.name, some (now - firstSeen)⟩) := by
      simp [RulesEngine.check_loitering_rule, hen, hcls, hsome, hthr, hdup]
    refine ⟨⟨cameraId, "loitering", det.className, det.confidence, det.bbox,
      RulesEngine.save_snapshot wa, cfg.priority, zone.id, zone.name,
      some (now - firstSeen)⟩, heq, rfl, rfl, rfl, ?_⟩
    rw [heq]
    exact dictGet_dictDel_self st.zoneOccupancy _ hnodup

/-- C3 witness: a person detection with reference point (50, 90) in zone 2,
first seen at time 0 and sighted again at time 30 with the default
threshold 30, fires once and deletes the occupancy entry. -/
theorem loitering_rule_correct_witness :
    ∃ ev : RulesEngine.Event,
      RulesEngine.check_loitering_rule RulesEngine.loiteringDefaults 1
          witnessZone witnessPersonDetection (Except.ok "snap.jpg")
          ⟨[((2, "1_1"), 0)], []⟩ 30 =
        (⟨RulesEngine.dictDel [((2, "1_1"), 0)]
            (witnessZone.id, RulesEngine.objectKey
              (InferenceEngine.get_bbox_center witnessPersonDetection.bbox)),
          RulesEngine.dictSet []
            (RulesEngine.loiteringHash 1 witnessZone.id
              (RulesEngine.objectKey
                (InferenceEngine.get_bbox_center
                  witnessPersonDetection.bbox))) 30⟩,
          some ev) ∧
      ev.ruleType = "loitering" ∧
      ev.priority = RulesEngine.loiteringDefaults.priority ∧
      ev.snapshotPath = RulesEngine.save_snapshot (Except.ok "snap.jpg") ∧
      RulesEngine.dictGet
        (RulesEngine.check_loitering_rule RulesEngine.loiteringDefaults 1
          witnessZone witnessPersonDetection (Except.ok "snap.jpg")
          ⟨[((2, "1_1"), 0)], []⟩ 30).1.zoneOccupancy
        (witnessZone.id, RulesEngine.objectKey
          (InferenceEngine.get_bbox_center witnessPersonDetection.bbox)) =
        none :=
  (loitering_rule_correct RulesEngine.loiteringDefaults 1 witnessZone
    witnessPersonDetection (Except.ok "snap.jpg") ⟨[((2, "1_1"), 0)], []⟩ 30
    rfl).2.2.2.2.1 0 rfl (by decide) (by decide) (by decide) (by decide)

/-- C4 counterexample: a `process_detections` call with an empty detection
list returns before housekeeping runs, so an occupancy entry 100 seconds
old — far beyond the 60 second staleness window — survives the call
unpurged, though the claim says every call purges such entries. -/
theorem housekeeping_skipped_on_empty_call :
    ((7, "0_0"), 0) ∈ (RulesEngine.process_detections
        RulesEngine.intrusionDefaults RulesEngine.loiteringDefaults 1
        [witnessZone] [] (Except.ok "p") staleOccupancyState
        100).1.zoneOccupancy ∧
    (100 : Int) - 0 > 60 := by
  constructor
  · decide
  · decide

/-- C4 (amended): after each `process_detections` call that actually
processes — non-empty detections and non-empty zones, the cases that do not
hit the early returns — every surviving occupancy entry was recorded within
the last 60 seconds and every surviving dedup entry within the dedup
window; and the purges delete exactly the entries strictly older than
their windows. -/
theorem housekeeping_purges_after_processing
    (cfgI cfgL : RulesEngine.RuleConfig) (cameraId : Int)
    (zones : List ZoneManager.Zone) (dets : List RulesEngine.Detection)
    (wa : Except String String) (st : RulesEngine.RulesState) (now : Int)
    (hdets : dets ≠ []) (hzones : zones ≠ []) :
    (∀ e ∈ (RulesEngine.process_detections cfgI cfgL cameraId zones dets wa
        st now).1.zoneOccupancy, now - e.2 ≤ 60) ∧
    (∀ e ∈ (RulesEngine.process_detections cfgI cfgL cameraId zones dets wa
        st now).1.recentEvents, now - e.2 ≤ RulesEngine.dedupWindow) ∧
    (∀ (occ : List ((Int × String) × Int)) (t : Int)
        (e : (Int × String) × Int),
      e ∈ RulesEngine.cleanup_zone_occupancy occ t ↔
        e ∈ occ ∧ t - e.2 ≤ 60) ∧
    (∀ (re : List (String × Int)) (t : Int) (e : String × Int),
      e ∈ RulesEngine.cleanup_recent_events re t ↔
        e ∈ re ∧ t - e.2 ≤ RulesEngine.dedupWindow) := by
  obtain ⟨d, ds, rfl⟩ := List.exists_cons_of_ne_nil hdets
  obtain ⟨z, zs, rfl⟩ := List.exists_cons_of_ne_nil hzones
  refine ⟨?_, ?_, ?_, ?_⟩
  · intro e he
    simp only [RulesEngine.process_detections, List.isEmpty_cons,
      Bool.false_eq_true, if_false, RulesEngine.cleanup_zone_occupancy,
      List.mem_filter, decide_eq_true_eq] at he
    exact he.2
  · intro e he
    simp only [RulesEngine.process_detections, List.isEmpty_cons,
      Bool.false_eq_true, if_false, RulesEngine.cleanup_recent_events,
      List.mem_filter, decide_eq_true_eq] at he
    exact he.2
  · intro occ t e
    simp [RulesEngine.cleanup_zone_occupancy, List.mem_filter]
  · intro re t e
    simp [RulesEngine.cleanup_recent_events, List.mem_filter]

/-- C4 witness: a concrete purge instance — a 100 second old entry is kept
by the purge at time `t` exactly when it is at most 60 seconds old there,
which fails at time 100. -/
theorem housekeeping_purges_after_processing_witness :
    (((7 : Int), "0_0"), (0 : Int)) ∈
        RulesEngine.cleanup_zone_occupancy [(((7 : Int), "0_0"), 0)] 100 ↔
      (((7 : Int), "0_0"), (0 : Int)) ∈ [(((7 : Int), "0_0"), (0 : Int))] ∧
        (100 : Int) - 0 ≤ 60 :=
  (housekeeping_purges_after_processing RulesEngine.intrusionDefaults
    RulesEngine.loiteringDefaults 1 [witnessZone] [witnessCarDetection]
    (Except.ok "p") staleOccupancyState 100 (List.cons_ne_nil _ _)
    (List.cons_ne_nil _ _)).2.2.1 [((7, "0_0"), 0)] 100 ((7, "0_0"), 0)

/-- C5 counterexample: with `max_retries = 10` and every open attempt
failing, the status updates reported to the camera status sink are not the
claimed `connecting`, ten times `error`, then one `offline` — the loop
never reports a connecting status, reports `error` eleven times and
`offline` twice. -/
theorem capture_retry_trace_counterexample :
    StreamIngestion.captureStatusesAlwaysFail 10 ≠
      "connecting" :: (List.replicate 10 "error" ++ ["offline"]) := by
  have h : StreamIngestion.captureStatusesAlwaysFail 10 =
      List.replicate 11 "error" ++ ["offline", "offline"] := by
    simp [StreamIngestion.captureStatusesAlwaysFail,
      StreamIngestion.failLoopStatuses, List.replicate]
  rw [h]
  decide

/-- C5 (amended): when the capture task fails to open its stream 11
consecutive times with `max_retries = 10`, the statuses reported to the
camera status sink are exactly `error` eleven times — one per failed
attempt, including the attempt that exhausts the retries — followed by
`offline` twice (once when the retry counter exceeds the maximum and once
from the loop exit cleanup); no `connecting` status is ever reported (the
connection attempt is only logged); the first ten failures are each
followed by a backoff of `min(2 ** retry_count, 60)` seconds with
`retry_count` incremented each failed cycle, and the capture task then
exits permanently. -/
theorem capture_retry_trace :
    StreamIngestion.captureStatusesAlwaysFail 10 =
      List.replicate 11 "error" ++ ["offline", "offline"] ∧
    StreamIngestion.failLoopWaits 10 0 =
      [2, 4, 8, 16, 32, 60, 60, 60, 60, 60] ∧
    "connecting" ∉ StreamIngestion.captureStatusesAlwaysFail 10 := by
  have h : StreamIngestion.captureStatusesAlwaysFail 10 =
      List.replicate 11 "error" ++ ["offline", "offline"] := by
    simp [StreamIngestion.captureStatusesAlwaysFail,
      StreamIngestion.failLoopStatuses, List.replicate]
  have hw : StreamIngestion.failLoopWaits 10 0 =
      [2, 4, 8, 16, 32, 60, 60, 60, 60, 60] := by
    simp [StreamIngestion.failLoopWaits, StreamIngestion.backoffWait]
  refine ⟨h, hw, ?_⟩
  rw [h]
  decide

/-- C6 counterexample: the dedup entry recorded at time 0 does not
suppress a repeat trigger at time 5, a gap of exactly the window — the
event is created — though the claim says a gap of at most the window is
suppressed. -/
theorem dedup_boundary_counterexample :
    (5 : Int) - 0 ≤ RulesEngine.dedupWindow ∧
    RulesEngine.is_duplicate_event
      [(RulesEngine.intrusionHash 1 2 "person", 0)] 5
      (RulesEngine.intrusionHash 1 2 "person") = false := by
  constructor
  · decide
  · decide

/-- C6 (amended): for every dedup entry recorded with last-emitted time
`tl`, a repeat trigger at time `tnew` is suppressed exactly when
`tnew - tl` is strictly less than the dedup window: the entry re-arms at
exactly the window boundary and never suppresses once the window or more
has passed. -/
theorem dedup_rearm_at_window (recentEvents : List (String × Int))
    (eventHash : String) (tl tnew : Int)
    (h : RulesEngine.dictGet recentEvents eventHash = some tl) :
    RulesEngine.is_duplicate_event recentEvents tnew eventHash = true ↔
      tnew - tl < RulesEngine.dedupWindow := by
  simp [RulesEngine.is_duplicate_event, h]

/-- C6 witness: with the entry recorded at time 0, a trigger at time 3 is
suppressed (3 seconds is strictly within the window). -/
theorem dedup_rearm_at_window_witness :
    RulesEngine.is_duplicate_event [("h", 0)] 3 "h" = true :=
  (dedup_rearm_at_window [("h", 0)] "h" 0 3 (by decide)).mpr (by decide)

/-- C7: for every rectangle zone given as two corner points in any order
and every point, the containment test equals the min and max normalized
inclusive test; swapping the two corners never changes the result; and
every point within the normalized bounds — boundary points included — is
contained. -/
theorem rectangle_containment_normalized (c1 c2 p : Int × Int) :
    (ZoneManager.is_point_in_zone p (ZoneManager.rectZone c1 c2) =
      ZoneManager.rectNormalizedTest p c1 c2) ∧
    (ZoneManager.is_point_in_zone p (ZoneManager.rectZone c1 c2) =
      ZoneManager.is_point_in_zone p (ZoneManager.rectZone c2 c1)) ∧
    (min c1.1 c2.1 ≤ p.1 → p.1 ≤ max c1.1 c2.1 → min c1.2 c2.2 ≤ p.2 →
      p.2 ≤ max c1.2 c2.2 →
      ZoneManager.is_point_in_zone p (ZoneManager.rectZone c1 c2) = true) := by
  refine ⟨rfl, ?_, ?_⟩
  · rw [is_point_in_zone_rect, is_point_in_zone_rect, min_comm c1.1 c2.1,
      max_comm c1.1 c2.1, min_comm c1.2 c2.2, max_comm c1.2 c2.2]
  · intro h1 h2 h3 h4
    rw [is_point_in_zone_rect]
    simp [h1, h2, h3, h4]

/-- C7 witness: the boundary point (0, 7) of the rectangle given with its
corners in reversed order (10, 0), (0, 10) is contained. -/
theorem rectangle_containment_normalized_witness :
    ZoneManager.is_point_in_zone (0, 7)
      (ZoneManager.rectZone (10, 0) (0, 10)) = true :=
  (rectangle_containment_normalized (10, 0) (0, 10) (0, 7)).2.2 (by decide)
    (by decide) (by decide) (by decide)

/-- C8: the point-in-zone test is total and never propagates a failure:
whenever evaluating the declared shape containment fails for any reason,
the result is `false`, and a shape kind that is neither polygon nor
rectangle also yields `false` — one bad zone cannot block evaluation
against other zones. -/
theorem point_in_zone_fault_isolation :
    (∀ (p : Int × Int) (zone : ZoneManager.Zone) (msg : String),
      ZoneManager.shape_containment p zone = Except.error msg →
      ZoneManager.is_point_in_zone p zone = false) ∧
    (∀ (p : Int × Int) (zone : ZoneManager.Zone),
      zone.type ≠ "polygon" → zone.type ≠ "rectangle" →
      ZoneManager.is_point_in_zone p zone = false) := by
  constructor
  · intro p zone msg h
    simp [ZoneManager.is_point_in_zone, h]
  · intro p zone h1 h2
    simp [ZoneManager.is_point_in_zone, ZoneManager.shape_containment, h1, h2]

/-- C8 witness: a rectangle zone whose coordinates cannot be unpacked
tests as not containing, and so does a zone of unknown shape kind. -/
theorem point_in_zone_fault_isolation_witness :
    ZoneManager.is_point_in_zone (0, 0) ⟨1, "bad", "rectangle", [[3]]⟩ =
      false ∧
    ZoneManager.is_point_in_zone (0, 0)
      ⟨2, "c", "circle", [[0, 0], [1, 1]]⟩ = false :=
  ⟨point_in_zone_fault_isolation.1 (0, 0) ⟨1, "bad", "rectangle", [[3]]⟩
    "missing rectangle corner" rfl,
  point_in_zone_fault_isolation.2 (0, 0) ⟨2, "c", "circle", [[0, 0], [1, 1]]⟩
    (by decide) (by decide)⟩

/-- C9: if the annotate-and-write attempt of the snapshot fails, the
snapshot operation returns the empty path instead of raising, and the
intrusion rule still creates its event, carrying the empty snapshot path —
snapshot failure never prevents event emission. -/
theorem snapshot_failure_nonfatal (cfg : RulesEngine.RuleConfig)
    (cameraId : Int) (zone : ZoneManager.Zone) (det : RulesEngine.Detection)
    (st : RulesEngine.RulesState) (now : Int) (msg : String)
    (hen : cfg.enabled = true)
    (hdup : RulesEngine.is_duplicate_event st.recentEvents now
      (RulesEngine.intrusionHash cameraId zone.id det.className) = false) :
    RulesEngine.save_snapshot (Except.error msg) = "" ∧
    ∃ ev, (RulesEngine.check_intrusion_rule cfg cameraId zone det
        (Except.error msg) st now).2 = some ev ∧
      ev.snapshotPath = "" ∧ ev.ruleType = "intrusion" := by
  refine ⟨rfl, ⟨cameraId, "intrusion", det.className, det.confidence,
    det.bbox, "", cfg.priority, zone.id, zone.name, none⟩, ?_, rfl, rfl⟩
  simp [RulesEngine.check_intrusion_rule, hen, hdup,
    RulesEngine.save_snapshot]

/-- C9 witness: a failing snapshot write during an intrusion trigger on a
fresh state still emits the event, with an empty snapshot path. -/
theorem snapshot_failure_nonfatal_witness :
    RulesEngine.save_snapshot (Except.error "disk full") = "" ∧
    ∃ ev, (RulesEngine.check_intrusion_rule RulesEngine.intrusionDefaults 1
        witnessZone witnessCarDetection (Except.error "disk full") ⟨[], []⟩
        0).2 = some ev ∧
      ev.snapshotPath = "" ∧ ev.ruleType = "intrusion" :=
  snapshot_failure_nonfatal RulesEngine.intrusionDefaults 1 witnessZone
    witnessCarDetection ⟨[], []⟩ 0 "disk full" rfl rfl

/-- C10: `get_frame` is total and never raises — for every camera id with
no frame queue it returns `none` for every timeout value, and an empty
queue at timeout expiry also yields `none`. -/
theorem get_frame_never_raises (α : Type)
    (frameQueues : Int → Option (FrameQueue α)) (cameraId : Int)
    (timeout : ℚ) :
    (frameQueues cameraId = none →
      StreamIngestion.get_frame frameQueues cameraId timeout = none) ∧
    (∀ q, frameQueues cameraId = some q → q.items = [] →
      StreamIngestion.get_frame frameQueues cameraId timeout = none) := by
  constructor
  · intro h
    simp [StreamIngestion.get_frame, h]
  · intro q hq hitems
    simp [StreamIngestion.get_frame, hq, hitems]

/-- C10 witness: a never-started camera yields no frame, and an empty
queue at timeout expiry yields no frame. -/
theorem get_frame_never_raises_witness :
    StreamIngestion.get_frame noQueues 1 1 = none ∧
    StreamIngestion.get_frame emptyQueues 1 1 = none :=
  ⟨(get_frame_never_raises Nat noQueues 1 1).1 rfl,
  (get_frame_never_raises Nat emptyQueues 1 1).2 (FrameQueue.empty Nat 100)
    rfl rfl⟩

end SentinelSight
